import Mathlib

/-!
Verification development for the hum-it-out voice-to-music service.

The definitions below are a shallow embedding of the JavaScript source:

* the in-memory job queue of ProcessingService (static processingQueue /
  isProcessing / processQueue / queueProcessingJob / clearQueue /
  handleJobFailure) is embedded as a labelled transition system on
  QueueState, with one transition per atomic synchronous segment of the
  Node event loop (code between two await suspension points runs
  without interleaving);
* AudioProcessor.processRecording, AG2MusicGenerator, TwilioService.sendSMS,
  AuthService.validatePIN and the Twilio webhook routes of dashboard.js are
  embedded as pure functions, with every external collaborator (database,
  OpenAI, Twilio client, socket transport) passed in as an oracle value
  describing the outcome of that call.
-/

namespace HumItOut

/-! ## Job queue data model (ProcessingService) -/

/-- The two job types created by queueProcessingJob and queueRegenerationJob. -/
inductive JobType
  | processRecording
  | regenerateSession
deriving DecidableEq, Repr

/-- The status strings a job object passes through in ProcessingService. -/
inductive JobStatus
  | queued
  | processing
  | retrying
  | failed
  | completed
deriving DecidableEq, Repr

/-- A queue job, as built in queueProcessingJob: status starts queued,
attempts starts 0, maxAttempts is fixed at 3. Payload fields that the
queue logic never branches on are omitted. -/
structure Job where
  id : Nat
  jtype : JobType
  status : JobStatus
  attempts : Nat
  maxAttempts : Nat
deriving DecidableEq, Repr

/-- The queue-relevant mutable state of ProcessingService.
queue mirrors the static processingQueue array, isProcessing the static
flag. running holds the jobs currently awaited inside processJob (one per
live processQueue invocation). done accumulates jobs after their terminal
transition, and failureHandled records the ids for which handleJobFailure
ran. -/
structure QueueState where
  queue : List Job
  isProcessing : Bool
  running : List Job
  done : List Job
  failureHandled : List Nat
deriving DecidableEq, Repr

def initState : QueueState := ⟨[], false, [], [], []⟩

/-- The job object literal built by queueProcessingJob and
queueRegenerationJob: status queued, attempts 0, maxAttempts 3. -/
def mkJob (t : JobType) (id : Nat) : Job :=
  ⟨id, t, JobStatus.queued, 0, 3⟩

/-- First line of processJob: job.status is set to processing. -/
def markProcessing (j : Job) : Job := { j with status := JobStatus.processing }

/-- Remove the first occurrence of a job value from a list (the shift
of the job a worker holds happens when it leaves the queue; this helper
removes a finished job from the running multiset). -/
def dropOne (j : Job) : List Job → List Job
  | [] => []
  | x :: xs => if x = j then xs else x :: dropOne j xs

/-- The synchronous continuation of the while loop in processQueue after a
processJob call settles: if the queue is non-empty the worker shifts the
head and starts processing it (up to the next await); if the queue is empty
the loop exits and isProcessing is reset to false. -/
def contLoop (s : QueueState) : QueueState :=
  match s.queue with
  | [] => { s with isProcessing := false }
  | j :: rest =>
      { s with queue := rest, running := s.running ++ [markProcessing j] }

/-- The synchronous head of processQueue: return if already processing or
the queue is empty, otherwise set isProcessing, shift the head and start
processing it. -/
def processQueueStart (s : QueueState) : QueueState :=
  if s.isProcessing then s
  else
    match s.queue with
    | [] => s
    | j :: rest =>
        { s with isProcessing := true, queue := rest,
                 running := s.running ++ [markProcessing j] }

/-- queueProcessingJob / queueRegenerationJob: push the new job to the tail
of processingQueue, then call processQueue when no worker is active. -/
def enqueueOp (s : QueueState) (t : JobType) (id : Nat) : QueueState :=
  processQueueStart { s with queue := s.queue ++ [mkJob t id] }

/-- The catch block of processQueue for a failed processJob: increment
attempts, mark failed; when attempts is still below maxAttempts mark
retrying and re-append to the tail of the queue, otherwise run
handleJobFailure and leave the job terminally failed. -/
def failOp (s : QueueState) (j : Job) : QueueState :=
  if j.attempts + 1 < j.maxAttempts then
    { s with running := dropOne j s.running,
             queue := s.queue ++
               [{ j with attempts := j.attempts + 1, status := JobStatus.retrying }] }
  else
    { s with running := dropOne j s.running,
             done := s.done ++
               [{ j with attempts := j.attempts + 1, status := JobStatus.failed }],
             failureHandled := s.failureHandled ++ [j.id] }

/-- Successful return of processJob: job.status is set to completed. -/
def okOp (s : QueueState) (j : Job) : QueueState :=
  { s with running := dropOne j s.running,
           done := s.done ++ [{ j with status := JobStatus.completed }] }

/-- clearQueue: reset processingQueue to the empty array and isProcessing
to false; jobs already inside processJob are not touched. -/
def clearOp (s : QueueState) : QueueState :=
  { s with queue := [], isProcessing := false }

/-- All jobs owned by the service, over the three locations. -/
def allJobs (s : QueueState) : List Job := s.queue ++ s.running ++ s.done

/-- The ids of all jobs owned by the service. -/
def allIds (s : QueueState) : List Nat := (allJobs s).map Job.id

/-- Labels for the atomic event-loop segments that touch the queue. -/
inductive QLabel
  | enq (t : JobType) (id : Nat)
  | finOk (j : Job)
  | finErr (j : Job)
  | clr
deriving DecidableEq, Repr

/-- One atomic synchronous segment of the Node event loop touching the
ProcessingService state: an enqueue call, the settlement of an awaited
processJob (successfully or with an exception), or a clearQueue call.
Job ids produced by Date.now plus a random suffix are modelled as fresh. -/
inductive Step : QLabel → QueueState → QueueState → Prop
  | enq (s : QueueState) (t : JobType) (id : Nat)
      (fresh : id ∉ allIds s) :
      Step (QLabel.enq t id) s (enqueueOp s t id)
  | finOk (s : QueueState) (j : Job) (h : j ∈ s.running) :
      Step (QLabel.finOk j) s (contLoop (okOp s j))
  | finErr (s : QueueState) (j : Job) (h : j ∈ s.running) :
      Step (QLabel.finErr j) s (contLoop (failOp s j))
  | clr (s : QueueState) : Step QLabel.clr s (clearOp s)

/-- Reachability from the initial empty service state under every
interleaving of enqueue calls, worker-loop steps and clearQueue calls. -/
inductive Reach : QueueState → Prop
  | init : Reach initState
  | step (l : QLabel) (s s' : QueueState) :
      Reach s → Step l s s' → Reach s'

/-- Reachability using only enqueue calls and worker-loop steps, with no
clearQueue call. -/
inductive ReachNC : QueueState → Prop
  | init : ReachNC initState
  | step (l : QLabel) (s s' : QueueState) :
      ReachNC s → Step l s s' → l ≠ QLabel.clr → ReachNC s'

theorem reachNC_reach {s : QueueState} (h : ReachNC s) : Reach s := by
  induction h with
  | init => exact Reach.init
  | step l s s' _ hs _ ih => exact Reach.step l s s' ih hs

/-- Number of jobs currently carrying status processing, over every job
the service owns. -/
def processingCount (s : QueueState) : Nat :=
  ((allJobs s).filter (fun j => j.status = JobStatus.processing)).length

/-! ## C1 counterexample trace

Worker one starts on job 0 and suspends inside the pipeline; clearQueue
resets isProcessing while job 0 is still in flight; a new enqueue then
starts a second worker on job 1, so two jobs carry status processing. -/

def c1s1 : QueueState :=
  ⟨[], true, [⟨0, JobType.processRecording, JobStatus.processing, 0, 3⟩], [], []⟩

def c1s2 : QueueState :=
  ⟨[], false, [⟨0, JobType.processRecording, JobStatus.processing, 0, 3⟩], [], []⟩

def c1s3 : QueueState :=
  ⟨[], true,
    [⟨0, JobType.processRecording, JobStatus.processing, 0, 3⟩,
     ⟨1, JobType.processRecording, JobStatus.processing, 0, 3⟩], [], []⟩

theorem reach_c1s3 : Reach c1s3 := by
  have h1 : Reach c1s1 := by
    have e : enqueueOp initState JobType.processRecording 0 = c1s1 := by decide
    exact e ▸ Reach.step _ _ _ Reach.init
      (Step.enq initState JobType.processRecording 0 (by decide))
  have h2 : Reach c1s2 := by
    have e : clearOp c1s1 = c1s2 := by decide
    exact e ▸ Reach.step _ _ _ h1 (Step.clr c1s1)
  have e : enqueueOp c1s2 JobType.processRecording 1 = c1s3 := by decide
  exact e ▸ Reach.step _ _ _ h2
    (Step.enq c1s2 JobType.processRecording 1 (by decide))

/-- C1: the claim states that at most one job is in status processing at
every reachable state, for every interleaving including clearQueue calls.
Counterexample: after enqueue, clearQueue while the job is mid-pipeline,
and a second enqueue, a reachable state holds two jobs in status
processing, because clearQueue resets isProcessing without waiting for
the in-flight job. -/
theorem c1_counterexample : Reach c1s3 ∧ processingCount c1s3 = 2 :=
  ⟨reach_c1s3, by decide⟩

/-! ## Queue invariants -/

theorem mem_dropOne {j x : Job} : ∀ {l : List Job}, x ∈ dropOne j l → x ∈ l := by
  intro l
  induction l with
  | nil => intro h; exact absurd h (List.not_mem_nil x)
  | cons a t ih =>
    intro h
    by_cases ha : a = j
    · simp only [dropOne, if_pos ha] at h
      exact List.mem_cons_of_mem a h
    · simp only [dropOne, if_neg ha] at h
      rcases List.mem_cons.mp h with rfl | h
      · exact List.mem_cons_self x t
      · exact List.mem_cons_of_mem a (ih h)

theorem dropOne_of_singleton {l : List Job} {j : Job}
    (hlen : l.length ≤ 1) (hj : j ∈ l) : dropOne j l = [] := by
  cases l with
  | nil => rfl
  | cons a t =>
    cases t with
    | nil =>
      rcases List.mem_singleton.mp hj with rfl
      simp [dropOne]
    | cons b u => simp at hlen

/-- Structural invariant of the queue state, maintained by every event-loop
segment, clearQueue included: statuses match locations, attempts stay below
maxAttempts until the terminal transition, a terminally failed job has
attempts equal to maxAttempts and its failure handler ran. -/
structure SInv (s : QueueState) : Prop where
  queueStatus : ∀ j ∈ s.queue,
    j.status = JobStatus.queued ∨ j.status = JobStatus.retrying
  runStatus : ∀ j ∈ s.running, j.status = JobStatus.processing
  doneStatus : ∀ j ∈ s.done,
    j.status = JobStatus.completed ∨ j.status = JobStatus.failed
  queueAtt : ∀ j ∈ s.queue, j.attempts < j.maxAttempts
  runAtt : ∀ j ∈ s.running, j.attempts < j.maxAttempts
  doneAtt : ∀ j ∈ s.done, j.attempts ≤ j.maxAttempts
  doneFailedAtt : ∀ j ∈ s.done,
    j.status = JobStatus.failed → j.attempts = j.maxAttempts
  doneFailedHandled : ∀ j ∈ s.done,
    j.status = JobStatus.failed → j.id ∈ s.failureHandled

theorem sinv_init : SInv initState := by
  constructor <;> intro j hj <;> simp [initState] at hj

theorem sinv_contLoop {s : QueueState} (h : SInv s) : SInv (contLoop s) := by
  cases hq : s.queue with
  | nil =>
    simp only [contLoop, hq]
    refine ⟨?_, h.runStatus, h.doneStatus, ?_, h.runAtt, h.doneAtt,
            h.doneFailedAtt, h.doneFailedHandled⟩ <;>
      intro j hj <;> exact absurd hj (List.not_mem_nil j)
  | cons j0 rest =>
    simp only [contLoop, hq]
    refine ⟨?_, ?_, h.doneStatus, ?_, ?_, h.doneAtt, h.doneFailedAtt,
            h.doneFailedHandled⟩
    · intro j hj
      have hm : j ∈ s.queue := by rw [hq]; exact List.mem_cons_of_mem j0 hj
      exact h.queueStatus j hm
    · intro j hj
      rcases List.mem_append.mp hj with hold | hnew
      · exact h.runStatus j hold
      · rw [List.mem_singleton.mp hnew]; rfl
    · intro j hj
      have hm : j ∈ s.queue := by rw [hq]; exact List.mem_cons_of_mem j0 hj
      exact h.queueAtt j hm
    · intro j hj
      rcases List.mem_append.mp hj with hold | hnew
      · exact h.runAtt j hold
      · rw [List.mem_singleton.mp hnew]
        have hm : j0 ∈ s.queue := by rw [hq]; exact List.mem_cons_self j0 rest
        exact h.queueAtt j0 hm

theorem sinv_processQueueStart {s : QueueState} (h : SInv s) :
    SInv (processQueueStart s) := by
  cases hp : s.isProcessing with
  | true => simp only [processQueueStart, hp, if_true]; exact h
  | false =>
    cases hq : s.queue with
    | nil =>
      simp only [processQueueStart, hp, hq]
      exact h
    | cons j0 rest =>
      simp only [processQueueStart, hp, hq]
      refine ⟨?_, ?_, h.doneStatus, ?_, ?_, h.doneAtt, h.doneFailedAtt,
              h.doneFailedHandled⟩
      · intro j hj
        have hm : j ∈ s.queue := by rw [hq]; exact List.mem_cons_of_mem j0 hj
        exact h.queueStatus j hm
      · intro j hj
        rcases List.mem_append.mp hj with hold | hnew
        · exact h.runStatus j hold
        · rw [List.mem_singleton.mp hnew]; rfl
      · intro j hj
        have hm : j ∈ s.queue := by rw [hq]; exact List.mem_cons_of_mem j0 hj
        exact h.queueAtt j hm
      · intro j hj
        rcases List.mem_append.mp hj with hold | hnew
        · exact h.runAtt j hold
        · rw [List.mem_singleton.mp hnew]
          have hm : j0 ∈ s.queue := by rw [hq]; exact List.mem_cons_self j0 rest
          exact h.queueAtt j0 hm

theorem sinv_enqueueOp {s : QueueState} (h : SInv s) (t : JobType) (id : Nat) :
    SInv (enqueueOp s t id) := by
  refine sinv_processQueueStart ?_
  refine ⟨?_, h.runStatus, h.doneStatus, ?_, h.runAtt, h.doneAtt,
          h.doneFailedAtt, h.doneFailedHandled⟩
  · intro j hj
    rcases List.mem_append.mp hj with hold | hnew
    · exact h.queueStatus j hold
    · rw [List.mem_singleton.mp hnew]; exact Or.inl rfl
  · intro j hj
    rcases List.mem_append.mp hj with hold | hnew
    · exact h.queueAtt j hold
    · rw [List.mem_singleton.mp hnew]; exact Nat.zero_lt_succ 2

theorem sinv_okOp {s : QueueState} {j : Job} (h : SInv s) (_ : j ∈ s.running) :
    SInv (okOp s j) := by
  refine ⟨h.queueStatus, ?_, ?_, h.queueAtt, ?_, ?_, ?_, ?_⟩
  · intro x hx; exact h.runStatus x (mem_dropOne hx)
  · intro x hx
    rcases List.mem_append.mp hx with hold | hnew
    · exact h.doneStatus x hold
    · rw [List.mem_singleton.mp hnew]; exact Or.inl rfl
  · intro x hx; exact h.runAtt x (mem_dropOne hx)
  · intro x hx
    rcases List.mem_append.mp hx with hold | hnew
    · exact h.doneAtt x hold
    · rw [List.mem_singleton.mp hnew]
      exact Nat.le_of_lt (h.runAtt j ‹j ∈ s.running›)
  · intro x hx hfail
    rcases List.mem_append.mp hx with hold | hnew
    · exact h.doneFailedAtt x hold hfail
    · rw [List.mem_singleton.mp hnew] at hfail ⊢
      exact absurd hfail (by simp)
  · intro x hx hfail
    rcases List.mem_append.mp hx with hold | hnew
    · exact h.doneFailedHandled x hold hfail
    · rw [List.mem_singleton.mp hnew] at hfail
      exact absurd hfail (by simp)

theorem sinv_failOp {s : QueueState} {j : Job} (h : SInv s) (hj : j ∈ s.running) :
    SInv (failOp s j) := by
  by_cases hc : j.attempts + 1 < j.maxAttempts
  · simp only [failOp, if_pos hc]
    refine ⟨?_, ?_, h.doneStatus, ?_, ?_, h.doneAtt, h.doneFailedAtt,
            h.doneFailedHandled⟩
    · intro x hx
      rcases List.mem_append.mp hx with hold | hnew
      · exact h.queueStatus x hold
      · rw [List.mem_singleton.mp hnew]; exact Or.inr rfl
    · intro x hx; exact h.runStatus x (mem_dropOne hx)
    · intro x hx
      rcases List.mem_append.mp hx with hold | hnew
      · exact h.queueAtt x hold
      · rw [List.mem_singleton.mp hnew]; exact hc
    · intro x hx; exact h.runAtt x (mem_dropOne hx)
  · simp only [failOp, if_neg hc]
    have hle : j.attempts + 1 ≤ j.maxAttempts := h.runAtt j hj
    have heq : j.attempts + 1 = j.maxAttempts :=
      Nat.le_antisymm hle (Nat.le_of_not_lt hc)
    refine ⟨h.queueStatus, ?_, ?_, h.queueAtt, ?_, ?_, ?_, ?_⟩
    · intro x hx; exact h.runStatus x (mem_dropOne hx)
    · intro x hx
      rcases List.mem_append.mp hx with hold | hnew
      · exact h.doneStatus x hold
      · rw [List.mem_singleton.mp hnew]; exact Or.inr rfl
    · intro x hx; exact h.runAtt x (mem_dropOne hx)
    · intro x hx
      rcases List.mem_append.mp hx with hold | hnew
      · exact h.doneAtt x hold
      · rw [List.mem_singleton.mp hnew]; exact hle
    · intro x hx hfail
      rcases List.mem_append.mp hx with hold | hnew
      · exact h.doneFailedAtt x hold hfail
      · rw [List.mem_singleton.mp hnew]; exact heq
    · intro x hx hfail
      rcases List.mem_append.mp hx with hold | hnew
      · exact List.mem_append_left _ (h.doneFailedHandled x hold hfail)
      · rw [List.mem_singleton.mp hnew]
        exact List.mem_append_right _ (List.mem_singleton.mpr rfl)

theorem sinv_clearOp {s : QueueState} (h : SInv s) : SInv (clearOp s) := by
  refine ⟨?_, h.runStatus, h.doneStatus, ?_, h.runAtt, h.doneAtt,
          h.doneFailedAtt, h.doneFailedHandled⟩ <;>
    intro j hj <;> exact absurd hj (List.not_mem_nil j)

theorem sinv_step {l : QLabel} {s s' : QueueState}
    (h : SInv s) (hs : Step l s s') : SInv s' := by
  cases hs with
  | enq s t id _ => exact sinv_enqueueOp h t id
  | finOk s j hj => exact sinv_contLoop (sinv_okOp h hj)
  | finErr s j hj => exact sinv_contLoop (sinv_failOp h hj)
  | clr s => exact sinv_clearOp h

theorem reach_sinv {s : QueueState} (h : Reach s) : SInv s := by
  induction h with
  | init => exact sinv_init
  | step l s s' _ hs ih => exact sinv_step ih hs

/-- Single-worker invariant: it holds as long as clearQueue does not run. -/
def WInv (s : QueueState) : Prop :=
  s.running.length ≤ 1 ∧ (s.isProcessing = false → s.running = [])

theorem flag_true_of_running {s : QueueState} (h : WInv s) {j : Job}
    (hj : j ∈ s.running) : s.isProcessing = true := by
  cases hp : s.isProcessing with
  | false =>
    rw [h.2 hp] at hj
    exact absurd hj (List.not_mem_nil j)
  | true => rfl

theorem winv_contLoop {s : QueueState} (hrun : s.running = [])
    (hflag : s.queue ≠ [] → s.isProcessing = true) : WInv (contLoop s) := by
  cases hq : s.queue with
  | nil =>
    simp only [contLoop, hq]
    exact ⟨by rw [hrun]; exact Nat.zero_le 1, fun _ => hrun⟩
  | cons j0 rest =>
    simp only [contLoop, hq]
    constructor
    · rw [hrun]; simp
    · intro hf
      have := hflag (by rw [hq]; exact List.cons_ne_nil j0 rest)
      rw [this] at hf
      exact absurd hf (by simp)

theorem winv_step {l : QLabel} {s s' : QueueState}
    (h : WInv s) (hs : Step l s s') (hl : l ≠ QLabel.clr) : WInv s' := by
  cases hs with
  | enq s t id _ =>
    cases hp : s.isProcessing with
    | true =>
      simp only [enqueueOp, processQueueStart, hp, if_true]
      exact ⟨h.1, fun hf => by simp at hf⟩
    | false =>
      have hrun : s.running = [] := h.2 hp
      cases hq : s.queue with
      | nil =>
        simp only [enqueueOp, processQueueStart, hp, hq]
        exact ⟨by rw [hrun]; simp, fun hf => by simp at hf⟩
      | cons a t' =>
        simp only [enqueueOp, processQueueStart, hp, hq]
        exact ⟨by rw [hrun]; simp, fun hf => by simp at hf⟩
  | finOk s j hj =>
    refine winv_contLoop ?_ ?_
    · show dropOne j s.running = []
      exact dropOne_of_singleton (h.1) hj
    · intro _
      show s.isProcessing = true
      exact flag_true_of_running h hj
  | finErr s j hj =>
    by_cases hc : j.attempts + 1 < j.maxAttempts
    · refine winv_contLoop ?_ ?_
      · show (failOp s j).running = []
        simp only [failOp, if_pos hc]
        exact dropOne_of_singleton (h.1) hj
      · intro _
        simp only [failOp, if_pos hc]
        exact flag_true_of_running h hj
    · refine winv_contLoop ?_ ?_
      · show (failOp s j).running = []
        simp only [failOp, if_neg hc]
        exact dropOne_of_singleton (h.1) hj
      · intro _
        simp only [failOp, if_neg hc]
        exact flag_true_of_running h hj
  | clr s => exact absurd rfl hl

theorem winv_init : WInv initState := ⟨by simp [initState], fun _ => rfl⟩

theorem reachNC_winv {s : QueueState} (h : ReachNC s) : WInv s := by
  induction h with
  | init => exact winv_init
  | step l s s' _ hs hl ih => exact winv_step ih hs hl

theorem processingCount_le_one {s : QueueState}
    (hs : SInv s) (hw : WInv s) : processingCount s ≤ 1 := by
  have hqnil :
      s.queue.filter (fun j => j.status = JobStatus.processing) = [] := by
    refine List.filter_eq_nil_iff.mpr ?_
    intro a ha
    rcases hs.queueStatus a ha with h1 | h1 <;> simp [h1]
  have hdnil :
      s.done.filter (fun j => j.status = JobStatus.processing) = [] := by
    refine List.filter_eq_nil_iff.mpr ?_
    intro a ha
    rcases hs.doneStatus a ha with h1 | h1 <;> simp [h1]
  have hrle :
      (s.running.filter (fun j => j.status = JobStatus.processing)).length ≤ 1 :=
    Nat.le_trans (List.length_filter_le _ _) hw.1
  calc processingCount s
      = (s.queue.filter (fun j => j.status = JobStatus.processing)).length +
        ((s.running.filter (fun j => j.status = JobStatus.processing)).length +
         (s.done.filter (fun j => j.status = JobStatus.processing)).length) := by
        simp [processingCount, allJobs, List.filter_append]
    _ ≤ 1 := by rw [hqnil, hdnil]; simpa using hrle

/-- C1 amended: in every interleaving of enqueue calls and worker-loop
steps with no clearQueue call, at most one job carries status processing
at every reachable state. The original claim fails once clearQueue
interleavings are allowed, because clearQueue resets the worker-active
flag while a job may still be mid-pipeline, letting a later enqueue start
a second concurrent worker. -/
theorem c1_amended : ∀ s : QueueState, ReachNC s → processingCount s ≤ 1 :=
  fun _ h => processingCount_le_one (reach_sinv (reachNC_reach h)) (reachNC_winv h)

theorem c1_amended_witness : processingCount initState ≤ 1 :=
  c1_amended initState ReachNC.init

/-! ## C2: retry discipline -/

theorem contLoop_done (s : QueueState) : (contLoop s).done = s.done := by
  cases hq : s.queue <;> simp [contLoop, hq]

/-- C2: over every reachable state, attempts never exceeds maxAttempts and
every job still in the queue is strictly below it (so a terminally failed
job, whose attempts equals maxAttempts, is never re-appended); a terminally
failed job has attempts equal to maxAttempts and its failure handler ran;
a failed processing attempt increments attempts by exactly one, a
successful one leaves it unchanged; and the done list only ever grows. -/
theorem c2_retry_discipline :
    (∀ s : QueueState, Reach s → ∀ j ∈ allJobs s, j.attempts ≤ j.maxAttempts) ∧
    (∀ s : QueueState, Reach s → ∀ j ∈ s.queue, j.attempts < j.maxAttempts) ∧
    (∀ s : QueueState, Reach s → ∀ j ∈ s.done, j.status = JobStatus.failed →
      j.attempts = j.maxAttempts ∧ j.id ∈ s.failureHandled) ∧
    (∀ (s : QueueState) (j : Job), j ∈ s.running →
      (j.attempts + 1 < j.maxAttempts →
        { j with attempts := j.attempts + 1, status := JobStatus.retrying }
            ∈ (contLoop (failOp s j)).queue ∨
        { j with attempts := j.attempts + 1, status := JobStatus.processing }
            ∈ (contLoop (failOp s j)).running) ∧
      (¬ j.attempts + 1 < j.maxAttempts →
        { j with attempts := j.attempts + 1, status := JobStatus.failed }
            ∈ (contLoop (failOp s j)).done)) ∧
    (∀ (s : QueueState) (j : Job), j ∈ s.running →
      { j with status := JobStatus.completed } ∈ (contLoop (okOp s j)).done) ∧
    (∀ (l : QLabel) (s s' : QueueState), Step l s s' →
      ∀ j ∈ s.done, j ∈ s'.done) := by
  refine ⟨?_, ?_, ?_, ?_, ?_, ?_⟩
  · intro s hr j hj
    have hi := reach_sinv hr
    simp only [allJobs, List.append_assoc, List.mem_append] at hj
    rcases hj with h1 | h2 | h3
    · exact Nat.le_of_lt (hi.queueAtt j h1)
    · exact Nat.le_of_lt (hi.runAtt j h2)
    · exact hi.doneAtt j h3
  · intro s hr j hj
    exact (reach_sinv hr).queueAtt j hj
  · intro s hr j hj hfail
    have hi := reach_sinv hr
    exact ⟨hi.doneFailedAtt j hj hfail, hi.doneFailedHandled j hj hfail⟩
  · intro s j _
    constructor
    · intro hc
      simp only [failOp, if_pos hc]
      cases hsq : s.queue with
      | nil =>
        right
        simp [contLoop, hsq, markProcessing]
      | cons a t =>
        left
        simp [contLoop, hsq]
    · intro hc
      simp only [failOp, if_neg hc]
      cases hsq : s.queue with
      | nil => simp [contLoop, hsq]
      | cons a t => simp [contLoop, hsq]
  · intro s j _
    rw [contLoop_done]
    simp [okOp]
  · intro l s s' hst j hj
    cases hst with
    | enq s t id _ =>
      cases hp : s.isProcessing with
      | true => simpa [enqueueOp, processQueueStart, hp] using hj
      | false =>
        cases hq : s.queue with
        | nil => simpa [enqueueOp, processQueueStart, hp, hq] using hj
        | cons a t' => simpa [enqueueOp, processQueueStart, hp, hq] using hj
    | finOk s j0 h0 =>
      rw [contLoop_done]
      exact List.mem_append_left _ hj
    | finErr s j0 h0 =>
      rw [contLoop_done]
      by_cases hc : j0.attempts + 1 < j0.maxAttempts
      · simpa [failOp, if_pos hc] using hj
      · simp only [failOp, if_neg hc]
        exact List.mem_append_left _ hj
    | clr s => simpa [clearOp] using hj

def c2s : QueueState :=
  ⟨[], true, [⟨0, JobType.processRecording, JobStatus.processing, 0, 3⟩], [], []⟩

def c2j : Job := ⟨0, JobType.processRecording, JobStatus.processing, 0, 3⟩

theorem c2_witness :
    ({ c2j with attempts := 1, status := JobStatus.retrying }
        ∈ (contLoop (failOp c2s c2j)).queue ∨
     { c2j with attempts := 1, status := JobStatus.processing }
        ∈ (contLoop (failOp c2s c2j)).running) ∧
    { c2j with status := JobStatus.completed } ∈ (contLoop (okOp c2s c2j)).done := by
  constructor
  · exact (c2_retry_discipline.2.2.2.1 c2s c2j (by decide)).1 (by decide)
  · exact c2_retry_discipline.2.2.2.2.1 c2s c2j (by decide)

/-! ## C3: two failures then success end with attempts 2, not 3 -/

def c3s1 : QueueState :=
  ⟨[], true, [⟨0, JobType.processRecording, JobStatus.processing, 0, 3⟩], [], []⟩

def c3s2 : QueueState :=
  ⟨[], true, [⟨0, JobType.processRecording, JobStatus.processing, 1, 3⟩], [], []⟩

def c3s3 : QueueState :=
  ⟨[], true, [⟨0, JobType.processRecording, JobStatus.processing, 2, 3⟩], [], []⟩

def c3Final : QueueState :=
  ⟨[], false, [], [⟨0, JobType.processRecording, JobStatus.completed, 2, 3⟩], []⟩

theorem reach_c3Final : Reach c3Final := by
  have h1 : Reach c3s1 := by
    have e : enqueueOp initState JobType.processRecording 0 = c3s1 := by decide
    exact e ▸ Reach.step _ _ _ Reach.init
      (Step.enq initState JobType.processRecording 0 (by decide))
  have h2 : Reach c3s2 := by
    have e : contLoop (failOp c3s1
        ⟨0, JobType.processRecording, JobStatus.processing, 0, 3⟩) = c3s2 := by decide
    exact e ▸ Reach.step _ _ _ h1 (Step.finErr c3s1 _ (by decide))
  have h3 : Reach c3s3 := by
    have e : contLoop (failOp c3s2
        ⟨0, JobType.processRecording, JobStatus.processing, 1, 3⟩) = c3s3 := by decide
    exact e ▸ Reach.step _ _ _ h2 (Step.finErr c3s2 _ (by decide))
  have e : contLoop (okOp c3s3
      ⟨0, JobType.processRecording, JobStatus.processing, 2, 3⟩) = c3Final := by decide
  exact e ▸ Reach.step _ _ _ h3 (Step.finOk c3s3 _ (by decide))

/-- C3: the claim predicts final attempts 3 for a job whose pipeline fails
twice then succeeds. Counterexample: the code increments attempts only in
the catch block of processQueue, so the exhibited execution (enqueue with
maxAttempts 3, two pipeline exceptions, then success) reaches a state
whose completed job carries attempts 2, not 3. -/
theorem c3_counterexample :
    Reach c3Final ∧
    c3Final.done = [⟨0, JobType.processRecording, JobStatus.completed, 2, 3⟩] ∧
    (∀ j ∈ c3Final.done, j.attempts ≠ 3) :=
  ⟨reach_c3Final, by decide, by decide⟩

/-- C3 amended: for a job enqueued with maxAttempts 3 whose pipeline throws
on the first two attempts and succeeds on the third, the final status is
completed and attempts equals 2, since attempts counts only failed
attempts and a successful attempt does not increment it. -/
theorem c3_amended :
    Reach c3Final ∧
    (∀ j ∈ c3Final.done,
      j.status = JobStatus.completed ∧ j.attempts = 2 ∧ j.maxAttempts = 3) :=
  ⟨reach_c3Final, by decide⟩

/-! ## C4: FIFO with tail requeue; overtaking execution -/

def c4jA : Job := ⟨0, JobType.processRecording, JobStatus.processing, 0, 3⟩

def c4s1 : QueueState := ⟨[], true, [c4jA], [], []⟩

def c4s2 : QueueState := ⟨[mkJob JobType.processRecording 1], true, [c4jA], [], []⟩

def c4s3 : QueueState :=
  ⟨[⟨0, JobType.processRecording, JobStatus.retrying, 1, 3⟩], true,
   [⟨1, JobType.processRecording, JobStatus.processing, 0, 3⟩], [], []⟩

def c4s4 : QueueState :=
  ⟨[], true, [⟨0, JobType.processRecording, JobStatus.processing, 1, 3⟩],
   [⟨1, JobType.processRecording, JobStatus.completed, 0, 3⟩], []⟩

theorem reach_c4s4 : Reach c4s4 := by
  have h1 : Reach c4s1 := by
    have e : enqueueOp initState JobType.processRecording 0 = c4s1 := by decide
    exact e ▸ Reach.step _ _ _ Reach.init
      (Step.enq initState JobType.processRecording 0 (by decide))
  have h2 : Reach c4s2 := by
    have e : enqueueOp c4s1 JobType.processRecording 1 = c4s2 := by decide
    exact e ▸ Reach.step _ _ _ h1
      (Step.enq c4s1 JobType.processRecording 1 (by decide))
  have h3 : Reach c4s3 := by
    have e : contLoop (failOp c4s2 c4jA) = c4s3 := by decide
    exact e ▸ Reach.step _ _ _ h2 (Step.finErr c4s2 c4jA (by decide))
  have e : contLoop (okOp c4s3
      ⟨1, JobType.processRecording, JobStatus.processing, 0, 3⟩) = c4s4 := by decide
  exact e ▸ Reach.step _ _ _ h3 (Step.finOk c4s3 _ (by decide))

/-- C4: the worker loop always shifts the head of the queue, a job failing
with attempts still below maxAttempts is re-appended at the tail, and in
the exhibited execution job 1, enqueued after job 0, is completed while
job 0 is still awaiting its retry. -/
theorem c4_fifo_tail_requeue :
    (∀ (s : QueueState) (j0 : Job) (rest : List Job), s.queue = j0 :: rest →
      (contLoop s).queue = rest ∧
      (contLoop s).running = s.running ++ [markProcessing j0]) ∧
    (∀ (s : QueueState) (j : Job), j.attempts + 1 < j.maxAttempts →
      (failOp s j).queue = s.queue ++
        [{ j with attempts := j.attempts + 1, status := JobStatus.retrying }]) ∧
    (Reach c4s4 ∧
      c4s4.done = [⟨1, JobType.processRecording, JobStatus.completed, 0, 3⟩] ∧
      c4s4.running =
        [⟨0, JobType.processRecording, JobStatus.processing, 1, 3⟩]) := by
  refine ⟨?_, ?_, reach_c4s4, by decide, by decide⟩
  · intro s j0 rest hq
    simp [contLoop, hq]
  · intro s j hc
    simp [failOp, if_pos hc]

theorem c4_witness :
    (contLoop c4s2).queue = [] ∧
    (contLoop c4s2).running =
      c4s2.running ++ [markProcessing (mkJob JobType.processRecording 1)] ∧
    (failOp c4s1 c4jA).queue =
      c4s1.queue ++ [{ c4jA with attempts := 1, status := JobStatus.retrying }] := by
  refine ⟨?_, ?_, ?_⟩
  · exact (c4_fifo_tail_requeue.1 c4s2 (mkJob JobType.processRecording 1) [] rfl).1
  · exact (c4_fifo_tail_requeue.1 c4s2 (mkJob JobType.processRecording 1) [] rfl).2
  · exact c4_fifo_tail_requeue.2.1 c4s1 c4jA (by decide)

/-! ## Authenticator (AuthService.validatePIN) -/

/-- The regular expression check of the source: exactly six digit
characters. -/
def sixDigits (s : String) : Bool :=
  s.data.length == 6 && s.data.all Char.isDigit

/-- A row of the users table, restricted to the columns the PIN path
reads: id, pin and the is_active flag. -/
structure AUser where
  id : Nat
  pin : String
  active : Bool
deriving DecidableEq, Repr

/-- Side effects of one validatePIN call: whether logFailedPINAttempt ran
and which user, if any, had last_login updated. -/
structure AuthEffects where
  failedAttemptLogged : Bool
  lastLoginUpdated : Option Nat
deriving DecidableEq, Repr

/-- AuthService.validatePIN: throw on bad format; select the first user
row with this pin and is_active true; when none matches, log a failed
attempt and return null; when one matches, update last_login and return
the user. -/
def validatePIN (db : List AUser) (pin : String) :
    Except String (Option AUser × AuthEffects) :=
  if sixDigits pin then
    match db.find? (fun u => u.pin == pin && u.active) with
    | none => Except.ok (none, ⟨true, none⟩)
    | some u => Except.ok (some u, ⟨false, some u.id⟩)
  else Except.error "PIN must be exactly 6 digits"

theorem validatePIN_none {db : List AUser} {pin : String}
    (hfmt : sixDigits pin = true)
    (hnone : db.find? (fun u => u.pin == pin && u.active) = none) :
    validatePIN db pin = Except.ok (none, ⟨true, none⟩) := by
  unfold validatePIN
  rw [hfmt]
  simp [hnone]

/-- C10: for a well-formed six-digit PIN held only by inactive users,
validatePIN returns null with a logged failed attempt and no last_login
update, and gives exactly the same answer as on a directory from which
every holder of that PIN has been removed, so an inactive user can never
authenticate over the phone. -/
theorem c10_inactive_like_missing :
    ∀ (db : List AUser) (pin : String),
      sixDigits pin = true →
      (∀ u ∈ db, u.pin = pin → u.active = false) →
      validatePIN db pin = Except.ok (none, ⟨true, none⟩) ∧
      validatePIN db pin =
        validatePIN (db.filter (fun u => u.pin ≠ pin)) pin := by
  intro db pin hfmt hinactive
  have hnone : db.find? (fun u => u.pin == pin && u.active) = none := by
    refine List.find?_eq_none.mpr ?_
    intro u hu
    by_cases hp : u.pin = pin
    · simp [hp, hinactive u hu hp]
    · simp [hp]
  have hnone2 :
      (db.filter (fun u => u.pin ≠ pin)).find?
        (fun u => u.pin == pin && u.active) = none := by
    refine List.find?_eq_none.mpr ?_
    intro u hu
    have := List.of_mem_filter hu
    simp at this
    simp [this]
  constructor
  · exact validatePIN_none hfmt hnone
  · rw [validatePIN_none hfmt hnone, validatePIN_none hfmt hnone2]

def c10db : List AUser := [⟨7, "123456", false⟩]

theorem c10_witness :
    validatePIN c10db "123456" = Except.ok (none, ⟨true, none⟩) :=
  (c10_inactive_like_missing c10db "123456" (by decide) (by decide)).1

/-! ## PIN authentication webhook (dashboard.js POST authenticate) -/

/-- The request fields the authenticate handler reads. -/
structure AuthReq where
  digits : Option String
  callSid : String
deriving DecidableEq, Repr

/-- The TwiML documents the authenticate handler can answer with. -/
inductive AuthTwiml
  | formatReject
  | invalidPinReject
  | recordInstruction (userId : Nat) (callSid : String)
  | techErr
deriving DecidableEq, Repr

/-- The POST authenticate handler: reject on missing or non-six-digit
Digits, answer the generic rejection when validatePIN returns null, and
answer the record instruction carrying the user id and CallSid on a match.
The handler keeps no per-call state: there is no CallSession registry in
the source, so nothing distinguishes a CallSid that was already
authenticated. -/
def authenticateRoute (db : List AUser) (r : AuthReq) : AuthTwiml :=
  match r.digits with
  | none => AuthTwiml.formatReject
  | some d =>
    if sixDigits d then
      match validatePIN db d with
      | Except.error _ => AuthTwiml.techErr
      | Except.ok (none, _) => AuthTwiml.invalidPinReject
      | Except.ok (some u, _) => AuthTwiml.recordInstruction u.id r.callSid
    else AuthTwiml.formatReject

def c7db : List AUser := [⟨7, "123456", true⟩]

def c7req : AuthReq := ⟨some "123456", "CA100"⟩

/-- C7: the claim states a second valid PIN for an already authenticated
CallSid is rejected or ignored. Counterexample: submitting the same valid
six-digit PIN twice for CallSid CA100 yields a second recording
instruction, because the handler holds no per-call state at all. -/
theorem c7_counterexample :
    (List.replicate 2 c7req).map (authenticateRoute c7db) =
      [AuthTwiml.recordInstruction 7 "CA100",
       AuthTwiml.recordInstruction 7 "CA100"] := by decide

/-- C7 amended: the authenticate endpoint is stateless per call; every
submission of a valid six-digit PIN matching an active user returns a
fresh recording instruction, however many times it is repeated for the
same CallSid, since no CallSession registry exists in the source. -/
theorem c7_amended :
    ∀ (db : List AUser) (r : AuthReq) (d : String) (u : AUser),
      r.digits = some d → sixDigits d = true →
      db.find? (fun v => v.pin == d && v.active) = some u →
      ∀ n : Nat,
        (List.replicate n r).map (authenticateRoute db) =
          List.replicate n (AuthTwiml.recordInstruction u.id r.callSid) := by
  intro db r d u hd hfmt hfind n
  have hone : authenticateRoute db r = AuthTwiml.recordInstruction u.id r.callSid := by
    simp [authenticateRoute, hd, hfmt, validatePIN, hfind]
  rw [List.map_replicate, hone]

theorem c7_witness :
    (List.replicate 3 c7req).map (authenticateRoute c7db) =
      List.replicate 3 (AuthTwiml.recordInstruction 7 "CA100") :=
  c7_amended c7db c7req "123456" ⟨7, "123456", true⟩ rfl (by decide) (by decide) 3

/-! ## Twilio webhook signature middleware (dashboard.js) -/

/-- State-changing calls a webhook handler can make. -/
inductive WebhookEffect
  | logCall (action : String) (ok : Bool)
  | authenticatorCall
  | enqueueJob
deriving DecidableEq, Repr

/-- The request data the middleware reads: host header, original URL,
parsed body and the x-twilio-signature header. -/
structure WebhookReq where
  host : String
  originalUrl : String
  body : List (String × String)
  signature : Option String
deriving DecidableEq, Repr

/-- The URL the middleware validates against: https plus host header plus
originalUrl, the full request URL. -/
def fullUrl (r : WebhookReq) : String :=
  "https://" ++ r.host ++ r.originalUrl

inductive RouteOut
  | forbidden403
  | twiml
deriving DecidableEq, Repr

/-- validateTwilioSignature middleware: skip validation entirely in
development mode, otherwise ask the twilio library (abstracted as check)
to validate the auth token, signature header, full URL and body. -/
def validateTwilioSignature (devMode : Bool)
    (check : String → Option String → String → List (String × String) → Bool)
    (authToken : String) (r : WebhookReq) : Bool :=
  if devMode then true
  else check authToken r.signature (fullUrl r) r.body

/-- A route guarded by validateTwilioSignature: the handler runs only when
the middleware calls next; otherwise the response is 403 and no handler
effect happens. -/
def guardedRoute (devMode : Bool)
    (check : String → Option String → String → List (String × String) → Bool)
    (authToken : String)
    (handler : WebhookReq → RouteOut × List WebhookEffect)
    (r : WebhookReq) : RouteOut × List WebhookEffect :=
  if validateTwilioSignature devMode check authToken r then handler r
  else (RouteOut.forbidden403, [])

/-- The POST voice handler body: log the incoming call and answer the
PIN-collection TwiML. -/
def voiceHandler (_ : WebhookReq) : RouteOut × List WebhookEffect :=
  (RouteOut.twiml, [WebhookEffect.logCall "incoming_call" true])

def voiceRoute (devMode : Bool)
    (check : String → Option String → String → List (String × String) → Bool)
    (authToken : String) (r : WebhookReq) : RouteOut × List WebhookEffect :=
  guardedRoute devMode check authToken voiceHandler r

/-- C6: outside development mode, a webhook request whose signature fails
validation against the full request URL and body gets a 403 and produces
no effect at all, whatever the guarded handler would have done: no call
log, no Authenticator call, no enqueue. In the designated development
mode, and only there, validation is skipped. -/
theorem c6_invalid_signature_rejected :
    ∀ (check : String → Option String → String → List (String × String) → Bool)
      (authToken : String) (r : WebhookReq)
      (handler : WebhookReq → RouteOut × List WebhookEffect),
      check authToken r.signature (fullUrl r) r.body = false →
      guardedRoute false check authToken handler r = (RouteOut.forbidden403, []) ∧
      voiceRoute false check authToken r = (RouteOut.forbidden403, []) ∧
      validateTwilioSignature true check authToken r = true := by
  intro check authToken r handler hbad
  refine ⟨?_, ?_, ?_⟩ <;>
    simp [guardedRoute, voiceRoute, validateTwilioSignature, hbad]

def c6req : WebhookReq :=
  ⟨"example.com", "/twilio/voice", [("CallSid", "CA1")], some "sig"⟩

theorem c6_witness :
    guardedRoute false (fun _ _ _ _ => false) "tok" voiceHandler c6req =
      (RouteOut.forbidden403, []) ∧
    voiceRoute false (fun _ _ _ _ => false) "tok" c6req =
      (RouteOut.forbidden403, []) ∧
    validateTwilioSignature true (fun _ _ _ _ => false) "tok" c6req = true :=
  c6_invalid_signature_rejected (fun _ _ _ _ => false) "tok" c6req voiceHandler rfl

/-! ## Outbound SMS (TwilioService.sendSMS) and the failure handler -/

/-- The values TwilioService.sendSMS can resolve with; it never rejects:
missing or placeholder configuration resolves to a skipped marker, a
client error resolves to a graceful failure object. -/
inductive SmsOutcome
  | sent (sid : String)
  | skippedNotConfigured
  | failedGraceful (err : String)
deriving DecidableEq, Repr

/-- Model of the includes check on the configured phone number against the
placeholder text used in the sample environment file. -/
def hasPlaceholder : List Char → Bool
  | 'x' :: 'x' :: 'x' :: _ => true
  | _ :: rest => hasPlaceholder rest
  | [] => false

/-- TwilioService.sendSMS over the configured phone number and the outcome
of the twilio client call: skip when unconfigured, resolve with the sent
message on success, resolve with a graceful failure object instead of
throwing on a client error. -/
def sendSMS (configuredPhone : Option String)
    (clientResult : Except String String) : SmsOutcome :=
  match configuredPhone with
  | none => SmsOutcome.skippedNotConfigured
  | some p =>
    if hasPlaceholder p.data then SmsOutcome.skippedNotConfigured
    else
      match clientResult with
      | Except.ok sid => SmsOutcome.sent sid
      | Except.error e => SmsOutcome.failedGraceful e

/-- The job fields handleJobFailure branches on. -/
structure FJob where
  jtype : JobType
  userId : Option Nat
  phoneNumber : Option String
  callSid : Option String
  sessionId : Option String
  lastError : Option String
deriving DecidableEq, Repr

/-- Observable effects of one handleJobFailure call. -/
structure FailureEffects where
  sessionUpdateAttempted : Bool
  sessionMarkedFailed : Bool
  failureEventEmitted : Bool
  smsAttempted : Bool
  smsOutcome : Option SmsOutcome
deriving DecidableEq, Repr

/-- The effect record handleJobFailure produces: the sessions UPDATE runs
only for process_recording jobs and its own failure is caught and logged;
the realtime processing_failed emit is guarded by io and userId; the
apology SMS runs only when the job carries a phoneNumber. -/
def failureEffects (job : FJob) (ioAvailable : Bool)
    (dbResult : Except String Unit)
    (configuredPhone : Option String)
    (smsClient : Except String String) : FailureEffects :=
  { sessionUpdateAttempted := decide (job.jtype = JobType.processRecording),
    sessionMarkedFailed :=
      decide (job.jtype = JobType.processRecording) &&
        (match dbResult with
         | Except.ok _ => true
         | Except.error _ => false),
    failureEventEmitted := ioAvailable && job.userId.isSome,
    smsAttempted := job.phoneNumber.isSome,
    smsOutcome :=
      match job.phoneNumber with
      | some _ => some (sendSMS configuredPhone smsClient)
      | none => none }

/-- ProcessingService.handleJobFailure: every fallible step in its body is
wrapped (the database update in its own try/catch, the apology SMS both in
a try/catch and in the graceful sendSMS), and the realtime emit is a
fire-and-forget socket call, so the handler always resolves with its
effect record and never re-raises. -/
def handleJobFailure (job : FJob) (ioAvailable : Bool)
    (dbResult : Except String Unit)
    (configuredPhone : Option String)
    (smsClient : Except String String) : Except String FailureEffects :=
  Except.ok (failureEffects job ioAvailable dbResult configuredPhone smsClient)

def c5regen : FJob :=
  ⟨JobType.regenerateSession, some 42, none, none, some "sess1", some "stage failure"⟩

/-- C5: the claim states the failure handler persists failed status on the
associated ProcessingSession and attempts an apology message for every
terminally failed job. Counterexample: for a regenerate_session job, which
has an associated session but no phoneNumber field, the handler attempts
neither the session update nor the SMS. -/
theorem c5_counterexample :
    handleJobFailure c5regen true (Except.ok ())
        (some "+15550001") (Except.ok "SM1") =
      Except.ok ⟨false, false, true, false, none⟩ ∧
    (failureEffects c5regen true (Except.ok ())
        (some "+15550001") (Except.ok "SM1")).sessionUpdateAttempted = false := by
  constructor <;> rfl

/-- C5 amended: handleJobFailure never raises, resolving with its effect
record for every collaborator outcome; it attempts the failed-status
update exactly for process_recording jobs (and the update lands whenever
the database call succeeds), emits the failure event exactly when the
socket server and a user id are present, and attempts the apology SMS
exactly when the job carries a phone number. -/
theorem c5_amended :
    ∀ (job : FJob) (io : Bool) (db : Except String Unit)
      (cp : Option String) (client : Except String String),
      handleJobFailure job io db cp client =
        Except.ok (failureEffects job io db cp client) ∧
      (job.jtype = JobType.processRecording →
        (failureEffects job io db cp client).sessionUpdateAttempted = true) ∧
      (job.jtype = JobType.processRecording → db = Except.ok () →
        (failureEffects job io db cp client).sessionMarkedFailed = true) ∧
      (job.jtype ≠ JobType.processRecording →
        (failureEffects job io db cp client).sessionUpdateAttempted = false) ∧
      ((failureEffects job io db cp client).failureEventEmitted
        = (io && job.userId.isSome)) ∧
      ((failureEffects job io db cp client).smsAttempted
        = job.phoneNumber.isSome) := by
  intro job io db cp client
  refine ⟨rfl, ?_, ?_, ?_, rfl, rfl⟩
  · intro h; simp [failureEffects, h]
  · intro h hdb; simp [failureEffects, h, hdb]
  · intro h; simp [failureEffects, h]

theorem c5_witness :
    handleJobFailure
        ⟨JobType.processRecording, some 1, some "+15550003", some "CA9", none, some "err"⟩
        true (Except.ok ()) (some "+15550009") (Except.ok "SM2") =
      Except.ok (failureEffects
        ⟨JobType.processRecording, some 1, some "+15550003", some "CA9", none, some "err"⟩
        true (Except.ok ()) (some "+15550009") (Except.ok "SM2")) ∧
    (failureEffects
        ⟨JobType.processRecording, some 1, some "+15550003", some "CA9", none, some "err"⟩
        true (Except.ok ()) (some "+15550009") (Except.ok "SM2")).sessionUpdateAttempted
      = true := by
  constructor
  · exact (c5_amended _ true (Except.ok ()) (some "+15550009") (Except.ok "SM2")).1
  · exact (c5_amended
      ⟨JobType.processRecording, some 1, some "+15550003", some "CA9", none, some "err"⟩
      true (Except.ok ()) (some "+15550009") (Except.ok "SM2")).2.1 rfl

/-! ## Generation backend (AG2MusicGenerator) -/

/-- The analysis fields the generation chain branches on; source carries
the fallback marker when present. -/
structure MAnalysis where
  tempo : Nat
  key : String
  genres : List String
  source : Option String
deriving DecidableEq, Repr

structure ChordData where
  primaryProgression : List String
  chordNotes : List (String × List String)
  timing : Option String
deriving DecidableEq, Repr

structure GenreData where
  primaryGenre : String
deriving DecidableEq, Repr

structure ArrangementData where
  sections : List String
deriving DecidableEq, Repr

structure MusicResult where
  analysis : MAnalysis
  chords : ChordData
  genre : GenreData
  arrangement : ArrangementData
deriving DecidableEq, Repr

/-- The fixed chord-to-notes mapping of the documented fallback. -/
def defaultChordNotes : List (String × List String) :=
  [("C", ["C4", "E4", "G4"]), ("Am", ["A3", "C4", "E4"]),
   ("F", ["F3", "A3", "C4"]), ("G", ["G3", "B3", "D4"])]

/-- The default progression the composer stage returns from its own catch
block: C, Am, F, G with the fixed note mapping and whole-note timing. -/
def composerFallback : ChordData :=
  { primaryProgression := ["C", "Am", "F", "G"],
    chordNotes := defaultChordNotes,
    timing := some "whole notes" }

/-- runMusicAnalyst: return the parsed backend output, or on a backend
failure spread the incoming analysis with enhanced defaults; the fields
tracked here are carried over unchanged. -/
def runMusicAnalyst (oracle : Except String MAnalysis)
    (ma : MAnalysis) : MAnalysis :=
  match oracle with
  | Except.ok a => a
  | Except.error _ => ma

/-- runChordComposer: return the parsed backend output, or its own
deterministic default progression when the backend call throws. -/
def runChordComposer (oracle : Except String ChordData) : ChordData :=
  match oracle with
  | Except.ok c => c
  | Except.error _ => composerFallback

/-- runGenreSpecialist: parsed output, or a default adaptation built from
the first analysis genre with pop as last resort. -/
def runGenreSpecialist (oracle : Except String GenreData)
    (a : MAnalysis) : GenreData :=
  match oracle with
  | Except.ok g => g
  | Except.error _ => { primaryGenre := a.genres.headD "pop" }

/-- runArrangementDirector: parsed output, or a default arrangement. -/
def runArrangementDirector (oracle : Except String ArrangementData) :
    ArrangementData :=
  match oracle with
  | Except.ok d => d
  | Except.error _ => { sections := [] }

/-- getFallbackMusicData: the whole-chain fallback, the only place that
stamps source fallback onto the analysis. -/
def getFallbackMusicData (ma : MAnalysis) : MusicResult :=
  { analysis := { ma with source := some "fallback" },
    chords := { primaryProgression := ["C", "Am", "F", "G"],
                chordNotes := defaultChordNotes, timing := none },
    genre := { primaryGenre := "pop" },
    arrangement := { sections := ["intro", "verse", "chorus", "outro"] } }

/-- AG2MusicGenerator.generateMusic: run the four stages in order. Each
stage catches its own backend failure and substitutes its default, so the
outer catch that would return getFallbackMusicData is never reached when
only individual stages fail; the chain is total. -/
def generateMusic (oa : Except String MAnalysis) (oc : Except String ChordData)
    (og : Except String GenreData) (od : Except String ArrangementData)
    (ma : MAnalysis) : MusicResult :=
  let a := runMusicAnalyst oa ma
  { analysis := a,
    chords := runChordComposer oc,
    genre := runGenreSpecialist og a,
    arrangement := runArrangementDirector od }

def c8ma : MAnalysis := ⟨120, "C", ["pop"], none⟩

def c8analystOut : MAnalysis := ⟨118, "G", ["rock"], none⟩

def c8genreOut : GenreData := ⟨"rock"⟩

def c8dirOut : ArrangementData := ⟨["intro", "verse"]⟩

def c8res : MusicResult :=
  generateMusic (Except.ok c8analystOut) (Except.error "composer backend threw")
    (Except.ok c8genreOut) (Except.ok c8dirOut) c8ma

/-- C8: the claim states the result of a composer-stage failure carries a
source fallback marker or an equivalent one. Counterexample: with only the
composer stage throwing, the result substitutes the deterministic C, Am,
F, G progression but equals a record carrying no marker anywhere; the
source fallback marker is stamped only by getFallbackMusicData, which a
composer-only failure never reaches. -/
theorem c8_counterexample :
    c8res = ⟨c8analystOut, composerFallback, c8genreOut, c8dirOut⟩ ∧
    c8res.chords.primaryProgression = ["C", "Am", "F", "G"] ∧
    c8res.analysis.source ≠ some "fallback" ∧
    (getFallbackMusicData c8ma).analysis.source = some "fallback" := by
  refine ⟨rfl, rfl, ?_, rfl⟩
  decide

/-! ## Generation pipeline (AudioProcessor.processRecording) -/

structure AudioFile where
  size : Nat
deriving DecidableEq, Repr

structure Transcription where
  text : String
deriving DecidableEq, Repr

structure PResult where
  sessionId : Nat
  success : Bool
deriving DecidableEq, Repr

/-- AudioProcessor.validateAudioFile: reject above config.audio.maxSize,
reject below 1000 bytes, reject when the file is unreadable. -/
def validateAudioFile (maxSize : Nat) (f : AudioFile) (accessOk : Bool) :
    Except String Unit :=
  if maxSize < f.size then Except.error "Audio file too large"
  else if f.size < 1000 then Except.error "Audio file too small or corrupted"
  else if accessOk then Except.ok ()
  else Except.error "Audio file is not accessible"

/-- AudioProcessor.analyzeMusicalElements: parsed model output, or the
fixed deterministic default analysis when the model call fails. -/
def analyzeMusicalElements (oracle : Except String MAnalysis) : MAnalysis :=
  match oracle with
  | Except.ok a => a
  | Except.error _ => ⟨120, "C", ["pop"], none⟩

/-- AudioProcessor.sendSMSNotification: the await on sendDownloadLinks is
wrapped in a try/catch whose catch only logs, so a notification failure is
swallowed; the returned flag records whether the send succeeded. -/
def sendSMSNotification (notify : Except String Unit) : Bool :=
  match notify with
  | Except.ok _ => true
  | Except.error _ => false

/-- Outcomes of every external call processRecording awaits, in stage
order; the four generation oracles feed generateMusic. -/
structure StageOracles where
  download : Except String AudioFile
  accessOk : Bool
  maxSize : Nat
  transcribe : Except String Transcription
  analyze : Except String MAnalysis
  createSession : Except String Nat
  analystO : Except String MAnalysis
  composerO : Except String ChordData
  genreO : Except String GenreData
  directorO : Except String ArrangementData
  matFiles : Except String (List String)
  save : Except String Unit
  notify : Except String Unit

/-- AudioProcessor.processRecording, stage by stage: download, validate,
transcribe, analyze (degrades, never throws), create the session row in
processing status, generate (total chain), materialize files, save results
marking the session completed, then the swallowed SMS notification and
cleanup. The second component tracks the processing_status of the session
row: none before the row exists, processing after createSession, completed
after saveResults; a thrown stage propagates as the error result that the
queue turns into a retry or terminal failure. -/
def processRecording (o : StageOracles) (phoneNumber : Option String) :
    Except String PResult × Option String :=
  match o.download with
  | Except.error e => (Except.error ("Failed to download audio: " ++ e), none)
  | Except.ok f =>
    match validateAudioFile o.maxSize f o.accessOk with
    | Except.error e => (Except.error e, none)
    | Except.ok _ =>
      match o.transcribe with
      | Except.error e => (Except.error ("Transcription failed: " ++ e), none)
      | Except.ok _tr =>
        let analysis := analyzeMusicalElements o.analyze
        match o.createSession with
        | Except.error e =>
            (Except.error ("Failed to create session: " ++ e), none)
        | Except.ok sid =>
          let _music :=
            generateMusic o.analystO o.composerO o.genreO o.directorO analysis
          match o.matFiles with
          | Except.error e => (Except.error e, some "processing")
          | Except.ok _files =>
            match o.save with
            | Except.error e =>
                (Except.error ("Failed to save results: " ++ e),
                 some "processing")
            | Except.ok _ =>
              let _sms :=
                match phoneNumber with
                | some _ => sendSMSNotification o.notify
                | none => true
              (Except.ok ⟨sid, true⟩, some "completed")

/-- The oracle bundle for the C8 scenario: every stage succeeds except the
composer backend call. -/
def c8oracles (a : MAnalysis) (g : GenreData) (d : ArrangementData)
    (e : String) : StageOracles :=
  { download := Except.ok ⟨2000⟩, accessOk := true, maxSize := 10485760,
    transcribe := Except.ok ⟨"la la la"⟩,
    analyze := Except.ok ⟨120, "C", ["pop"], none⟩,
    createSession := Except.ok 1,
    analystO := Except.ok a, composerO := Except.error e,
    genreO := Except.ok g, directorO := Except.ok d,
    matFiles := Except.ok ["track.wav"], save := Except.ok (),
    notify := Except.ok () }

/-- C8 amended: when only the composer stage throws, the generation result
substitutes the deterministic C, Am, F, G fallback progression with its
fixed note mapping, the pipeline still completes the job with the session
marked completed, but the result carries the analyst output unchanged and
hence no fallback marker; the source fallback marker exists only on the
whole-chain fallback produced by getFallbackMusicData. -/
theorem c8_amended :
    ∀ (a : MAnalysis) (g : GenreData) (d : ArrangementData)
      (e : String) (ma : MAnalysis),
      (generateMusic (Except.ok a) (Except.error e)
          (Except.ok g) (Except.ok d) ma).chords = composerFallback ∧
      (generateMusic (Except.ok a) (Except.error e)
          (Except.ok g) (Except.ok d) ma).analysis = a ∧
      (getFallbackMusicData ma).analysis.source = some "fallback" ∧
      (processRecording (c8oracles a g d e) (some "+15550100")).1 =
        Except.ok ⟨1, true⟩ ∧
      (processRecording (c8oracles a g d e) (some "+15550100")).2 =
        some "completed" := by
  intro a g d e ma
  exact ⟨rfl, rfl, rfl, rfl, rfl⟩

theorem c8_witness :
    (generateMusic (Except.ok c8analystOut) (Except.error "down")
        (Except.ok c8genreOut) (Except.ok c8dirOut) c8ma).chords =
      composerFallback ∧
    (processRecording (c8oracles c8analystOut c8genreOut c8dirOut "down")
        (some "+15550100")).2 = some "completed" :=
  ⟨(c8_amended c8analystOut c8genreOut c8dirOut "down" c8ma).1,
   (c8_amended c8analystOut c8genreOut c8dirOut "down" c8ma).2.2.2.2⟩

/-- C9: when every stage through saveResults succeeds and only the SMS
notification stage throws, processRecording still resolves successfully
and the session keeps the completed status written by saveResults; and per
the queue embedding any job whose processJob call resolves is appended to
done with status completed, never failed or retried. -/
theorem c9_notify_failure_swallowed :
    (∀ (o : StageOracles) (p e : String) (f : AudioFile) (tr : Transcription)
       (sid : Nat) (fs : List String),
      o.download = Except.ok f → f.size ≤ o.maxSize → 1000 ≤ f.size →
      o.accessOk = true → o.transcribe = Except.ok tr →
      o.createSession = Except.ok sid → o.matFiles = Except.ok fs →
      o.save = Except.ok () → o.notify = Except.error e →
      processRecording o (some p) =
        (Except.ok ⟨sid, true⟩, some "completed")) ∧
    (∀ (s : QueueState) (j : Job), j ∈ s.running →
      { j with status := JobStatus.completed } ∈ (contLoop (okOp s j)).done) := by
  constructor
  · intro o p e f tr sid fs hd hs1 hs2 hacc htr hcs hmf hsv hn
    have h1 : ¬ o.maxSize < f.size := Nat.not_lt.mpr hs1
    have h2 : ¬ f.size < 1000 := Nat.not_lt.mpr hs2
    simp [processRecording, validateAudioFile, hd, htr, hcs, hmf, hsv, hn,
          hacc, h1, h2]
  · intro s j _
    rw [contLoop_done]
    simp [okOp]

/-- The oracle bundle for the C9 witness: everything succeeds except the
final SMS notification. -/
def c9o : StageOracles :=
  { download := Except.ok ⟨2000⟩, accessOk := true, maxSize := 10485760,
    transcribe := Except.ok ⟨"hum hum"⟩,
    analyze := Except.ok ⟨120, "C", ["pop"], none⟩,
    createSession := Except.ok 5,
    analystO := Except.ok ⟨120, "C", ["pop"], none⟩,
    composerO := Except.ok composerFallback,
    genreO := Except.ok ⟨"pop"⟩, directorO := Except.ok ⟨[]⟩,
    matFiles := Except.ok ["a.wav"], save := Except.ok (),
    notify := Except.error "sms gateway down" }

theorem c9_witness :
    processRecording c9o (some "+15550002") =
      (Except.ok ⟨5, true⟩, some "completed") :=
  c9_notify_failure_swallowed.1 c9o "+15550002" "sms gateway down"
    ⟨2000⟩ ⟨"hum hum"⟩ 5 ["a.wav"]
    rfl (by decide) (by decide) rfl rfl rfl rfl rfl rfl

end HumItOut
